import Mathlib

/-!
Verification development for the VibeBase/AIDB news-system core: the
JSONL-backed collection store with foreign-key enforcement and relationship
population.  The definitions below are a shallow embedding of the Express
route handlers and helpers of the server source (the current server file
referred to here as the "part_006 variant", and the older server
`src/server/index.ts` referred to as the "legacy variant" where the two
differ).  File contents are modelled as in-memory lists of parsed documents;
nondeterministic inputs (generated ids, `Date.now()`) are passed as explicit
parameters.  Float-valued record fields (`importance`, `decay_rate`,
`embedding`) are omitted: no property below depends on them.
-/

namespace VibeBase

/-- Models the JavaScript expression `x || d` for an optional string field:
`undefined` and the empty string (both falsy) yield the default. -/
def strD (o : Option String) (d : String) : String :=
  match o with
  | some s => if s = "" then d else s
  | none => d

/-- Models the JavaScript expression `x || d` for an optional numeric field:
`undefined` and `0` (both falsy) yield the default. -/
def natD (o : Option Nat) (d : Nat) : Nat :=
  match o with
  | some n => if n = 0 then d else n
  | none => d

/-- Models a JavaScript truthiness test on an optional string: `undefined`
and `""` are falsy and collapse to `none`. -/
def truthy (o : Option String) : Option String :=
  match o with
  | some s => if s = "" then none else some s
  | none => none

/-- Models JavaScript template-literal coercion of a possibly-undefined
string field: an absent value renders as the text `undefined`. -/
def jsStr (o : Option String) : String :=
  match o with
  | some s => s
  | none => "undefined"

/-- Models `hay.includes(needle)` on JavaScript strings: the needle occurs
as a contiguous substring (always true for the empty needle). -/
def strIncludes (hay needle : String) : Bool :=
  decide (needle.toList <:+: hay.toList)

/-- A per-field foreign-key declaration stored under `metadata._foreignKeys`:
the governed field, the target collection, and the on-delete policy. -/
structure FKDecl where
  field : String
  targetCollection : String
  onDelete : String
  deriving Repr, DecidableEq

/-- The open metadata bag of a document, restricted to the keys the news
system reads or writes.  Absent keys are `none` (JavaScript `undefined`);
`collectionTag` embeds the `_collection` key and `foreignKeys` the
`_foreignKeys` key. -/
structure Metadata where
  title : Option String := none
  categoryId : Option String := none
  authorId : Option String := none
  status : Option String := none
  publishedAt : Option Nat := none
  viewCount : Option Nat := none
  likeCount : Option Nat := none
  newsId : Option String := none
  parentId : Option String := none
  name : Option String := none
  description : Option String := none
  icon : Option String := none
  slug : Option String := none
  email : Option String := none
  avatar : Option String := none
  role : Option String := none
  collectionTag : Option String := none
  foreignKeys : List FKDecl := []
  deriving Repr, DecidableEq

/-- The universal record shape (`MemoryNode` in the source), omitting the
float-valued and embedding fields that no specified property touches. -/
structure Doc where
  id : String
  content : String
  content_type : String
  parent_id : Option String := none
  children : List String := []
  depth : Nat := 0
  metadata : Metadata := {}
  tags : List String := []
  created_at : Nat := 0
  last_accessed_at : Nat := 0
  access_count : Nat := 0
  deriving Repr, DecidableEq

/-- The four named collections of the news system. -/
inductive Collection where
  | categories
  | users
  | news
  | comments
  deriving Repr, DecidableEq

/-- The collection name as it appears in paths and `_collection` tags. -/
def Collection.name : Collection → String
  | .categories => "categories"
  | .users => "users"
  | .news => "news"
  | .comments => "comments"

/-- The persisted state of one store root: the legacy shared
`documents.jsonl` at the root (as its parsed document list, in file order)
and the four per-collection `{collection}/documents.jsonl` files, each
`none` when the file does not exist. -/
structure Store where
  rootDocs : List Doc
  categories : Option (List Doc) := none
  users : Option (List Doc) := none
  news : Option (List Doc) := none
  comments : Option (List Doc) := none
  deriving Repr, DecidableEq

/-- The contents of the dedicated subdirectory file of a collection, `none`
when the file is absent. -/
def Store.subFile (s : Store) : Collection → Option (List Doc)
  | .categories => s.categories
  | .users => s.users
  | .news => s.news
  | .comments => s.comments

/-- Replace the dedicated subdirectory file of one collection. -/
def Store.setSubFile (s : Store) : Collection → List Doc → Store
  | .categories, docs => { s with categories := some docs }
  | .users, docs => { s with users := some docs }
  | .news, docs => { s with news := some docs }
  | .comments, docs => { s with comments := some docs }

/-- Source helper `readCollectionFile`: read the collection subdirectory
file, yielding the empty list when the file does not exist. -/
def readCollectionFile (s : Store) (c : Collection) : List Doc :=
  match s.subFile c with
  | some docs => docs
  | none => []

/-- Source helper `writeCollectionFile`: replace the collection subdirectory
file with exactly the given documents, creating it if absent. -/
def writeCollectionFile (s : Store) (c : Collection) (docs : List Doc) : Store :=
  s.setSubFile c docs

/-- Source helper `getDocumentsByCollection` (part_006 variant): the
dedicated subdirectory file first in file order, then the legacy root
documents tagged `_collection = c` whose id is not among the dedicated ids.
The id set used for de-duplication is computed once from the dedicated file
only, exactly as in the source. -/
def getDocumentsByCollection (s : Store) (c : Collection) : List Doc :=
  let results := readCollectionFile s c
  let filteredDocs := s.rootDocs.filter (fun d => d.metadata.collectionTag = some c.name)
  let existingIds := results.map (fun d => d.id)
  results ++ filteredDocs.filter (fun d => ¬ existingIds.contains d.id)

/-- Source helper `createLookupMap` followed by `.get(k)`: a JavaScript
`Map` built from a list keeps the last entry for a duplicated key. -/
def createLookupMap (items : List Doc) (k : String) : Option Doc :=
  items.reverse.find? (fun d => d.id = k)

/-- Source helper `parseDocumentsByCollection` (legacy variant): each
document is classified into the first matching bucket of the
`if`/`else if` chain over `_collection` tag or `content_type`. -/
def docBucket (d : Doc) : Option Collection :=
  if d.metadata.collectionTag = some "categories" ∨ d.content_type = "category" then
    some .categories
  else if d.metadata.collectionTag = some "users" ∨ d.content_type = "user" then
    some .users
  else if d.metadata.collectionTag = some "news" ∨ d.content_type = "news" then
    some .news
  else if d.metadata.collectionTag = some "comments" ∨ d.content_type = "comment" then
    some .comments
  else
    none

/-- The bucket of one collection produced by `parseDocumentsByCollection`
on the legacy root file, in file order. -/
def parseDocumentsByCollection (docs : List Doc) (c : Collection) : List Doc :=
  docs.filter (fun d => docBucket d = some c)

/-- Error taxonomy of the operation boundary, as surfaced by the route
handlers (HTTP 400/404 responses with structured messages). -/
inductive NewsError where
  | ValidationError (msg : String)
  | ForeignKeyViolation (field : String) (value : String) (target : String)
  | ConflictError (msg : String)
  | NotFoundError (msg : String)
  | ReferentialIntegrityError (msg : String)
  deriving Repr, DecidableEq

deriving instance DecidableEq for Except

/-- Discriminator: the result is a success. -/
def isOk {α : Type} : Except NewsError α → Bool
  | .ok _ => true
  | .error _ => false

/-- Discriminator: the result is a `NotFoundError`. -/
def isNotFound {α : Type} : Except NewsError α → Bool
  | .error (.NotFoundError _) => true
  | _ => false

/-- Discriminator: the result is a `ReferentialIntegrityError`. -/
def isReferentialIntegrity {α : Type} : Except NewsError α → Bool
  | .error (.ReferentialIntegrityError _) => true
  | _ => false

/-- Discriminator: the result is a `ConflictError`. -/
def isConflict {α : Type} : Except NewsError α → Bool
  | .error (.ConflictError _) => true
  | _ => false

/-- Extract a successful payload, `none` on error. -/
def okOf {α : Type} : Except NewsError α → Option α
  | .ok a => some a
  | .error _ => none

/-- Insert into a descending-sorted list, after every element with a
strictly larger key and before the first element with an equal or smaller
key. -/
def insertDescBy {α : Type} (key : α → Nat) (d : α) : List α → List α
  | [] => [d]
  | x :: xs => if key x > key d then x :: insertDescBy key d xs else d :: x :: xs

/-- Stable descending sort by a numeric key.  `Array.prototype.sort` with
the comparator `(a, b) => key(b) - key(a)` is a stable sort (ES2019), and
the stable descending permutation of a list is unique, so this insertion
sort computes exactly the source's result. -/
def sortDescBy {α : Type} (key : α → Nat) : List α → List α
  | [] => []
  | x :: xs => insertDescBy key x (sortDescBy key xs)

/-- Insert into an ascending-sorted list, after every element with a
strictly smaller key and before the first element with an equal or larger
key. -/
def insertAscBy {α : Type} (key : α → Nat) (d : α) : List α → List α
  | [] => [d]
  | x :: xs => if key x < key d then x :: insertAscBy key d xs else d :: x :: xs

/-- Stable ascending sort by a numeric key, modelling
`Array.prototype.sort` with the comparator `(a, b) => key(a) - key(b)`. -/
def sortAscBy {α : Type} (key : α → Nat) : List α → List α
  | [] => []
  | x :: xs => insertAscBy key x (sortAscBy key xs)

/-- The embedded category object produced by population. -/
structure PopCategory where
  id : String
  name : String
  description : String
  icon : String
  slug : String
  deriving Repr, DecidableEq

/-- The embedded author object produced by population. -/
structure PopUser where
  id : String
  name : String
  email : String
  avatar : String
  role : String
  deriving Repr, DecidableEq

/-- The populated article view returned by the article routes. -/
structure PopulatedArticle where
  id : String
  content : String
  title : String
  categoryId : Option String
  authorId : Option String
  status : String
  publishedAt : Nat
  viewCount : Nat
  likeCount : Nat
  tags : List String
  created_at : Nat
  category : Option PopCategory
  author : Option PopUser
  deriving Repr, DecidableEq

/-- The populated comment view (before any tree assembly). -/
structure FlatComment where
  id : String
  content : String
  newsId : String
  authorId : Option String
  parentId : Option String
  likeCount : Nat
  created_at : Nat
  depth : Nat
  children : List String
  author : Option PopUser
  deriving Repr, DecidableEq

/-- Category projection used when embedding a category into an article
(part_006 variant, empty-string defaults). -/
def categoryView (c : Doc) : PopCategory :=
  { id := c.id
    name := strD c.metadata.name ""
    description := strD c.metadata.description ""
    icon := strD c.metadata.icon ""
    slug := strD c.metadata.slug "" }

/-- User projection used by the part_006 routes (`role || ''`). -/
def userView (u : Doc) : PopUser :=
  { id := u.id
    name := strD u.metadata.name ""
    email := strD u.metadata.email ""
    avatar := strD u.metadata.avatar ""
    role := strD u.metadata.role "" }

/-- User projection used by the legacy `populateComment`
(`role || 'guest'`). -/
def userViewLegacy (u : Doc) : PopUser :=
  { id := u.id
    name := strD u.metadata.name ""
    email := strD u.metadata.email ""
    avatar := strD u.metadata.avatar ""
    role := strD u.metadata.role "guest" }

/-- Inline population of one news article as done by the part_006 list and
get routes: a truthy foreign-key value is resolved through the lookup map,
a falsy value or an unresolved id populates the embedded key with `null`. -/
def populateArticle (categoryDocs userDocs : List Doc) (doc : Doc) : PopulatedArticle :=
  let catId := doc.metadata.categoryId
  let authId := doc.metadata.authorId
  let categoryDoc := match truthy catId with
    | some c => createLookupMap categoryDocs c
    | none => none
  let authorDoc := match truthy authId with
    | some a => createLookupMap userDocs a
    | none => none
  { id := doc.id
    content := doc.content
    title := strD doc.metadata.title ""
    categoryId := catId
    authorId := authId
    status := strD doc.metadata.status "draft"
    publishedAt := natD doc.metadata.publishedAt doc.created_at
    viewCount := natD doc.metadata.viewCount 0
    likeCount := natD doc.metadata.likeCount 0
    tags := doc.tags
    created_at := doc.created_at
    category := categoryDoc.map categoryView
    author := authorDoc.map userView }

/-- Query parameters of `GET /api/news/articles`, with the route's
defaults. -/
structure ArticleQuery where
  limit : Nat := 100
  offset : Nat := 0
  categoryId : Option String := none
  authorId : Option String := none
  status : Option String := none
  search : Option String := none
  deriving Repr, DecidableEq

/-- The filter stage of `GET /api/news/articles` (part_006 variant): each
query parameter, when truthy, filters by strict equality; `search` matches
the lowercased content or title substring. -/
def filteredNews (s : Store) (q : ArticleQuery) : List Doc :=
  let articles := getDocumentsByCollection s .news
  let articles := match truthy q.categoryId with
    | some v => articles.filter (fun a => a.metadata.categoryId = some v)
    | none => articles
  let articles := match truthy q.authorId with
    | some v => articles.filter (fun a => a.metadata.authorId = some v)
    | none => articles
  let articles := match truthy q.status with
    | some v => articles.filter (fun a => a.metadata.status = some v)
    | none => articles
  match truthy q.search with
  | some v =>
      articles.filter (fun a =>
        strIncludes a.content.toLower v.toLower ||
        strIncludes (strD a.metadata.title "").toLower v.toLower)
  | none => articles

/-- The sort key of the part_006 article sort:
`(metadata?.publishedAt as number) || 0` — a missing (or zero)
`publishedAt` contributes `0`, not `created_at`. -/
def articleSortKey (d : Doc) : Nat :=
  (d.metadata.publishedAt).getD 0

/-- The sort stage of `GET /api/news/articles` (part_006 variant): stable
sort of the filtered articles by `articleSortKey`, descending. -/
def sortedNews (s : Store) (q : ArticleQuery) : List Doc :=
  sortDescBy articleSortKey (filteredNews s q)

/-- Result shape of `GET /api/news/articles`. -/
structure ArticleListResult where
  articles : List PopulatedArticle
  total : Nat
  deriving Repr, DecidableEq

/-- `GET /api/news/articles` (part_006 variant): filter, sort, count the
total, paginate with `slice(offset, offset + limit)`, then populate. -/
def listArticles (s : Store) (q : ArticleQuery) : ArticleListResult :=
  let categoryDocs := getDocumentsByCollection s .categories
  let userDocs := getDocumentsByCollection s .users
  let sorted := sortedNews s q
  let page := (sorted.drop q.offset).take q.limit
  { articles := page.map (populateArticle categoryDocs userDocs)
    total := sorted.length }

/-- `GET /api/news/articles/:id` (part_006 variant): find the first merged
news document with the id, 404 otherwise, and populate it. -/
def getArticle (s : Store) (id : String) : Except NewsError PopulatedArticle :=
  let newsDocs := getDocumentsByCollection s .news
  match newsDocs.find? (fun d => d.id = id) with
  | none => .error (.NotFoundError "Article not found")
  | some doc =>
      .ok (populateArticle (getDocumentsByCollection s .categories)
        (getDocumentsByCollection s .users) doc)

/-- The category view returned by `GET /api/news/categories`, including the
computed article count. -/
structure CategoryView where
  id : String
  name : String
  description : String
  icon : String
  slug : String
  articleCount : Nat
  deriving Repr, DecidableEq

/-- `GET /api/news/categories` (part_006 variant).  The source counts
articles by building a map over the truthy `categoryId` values of the
merged news documents and reading it back with `|| 0`; that equals, per
category, the number of merged news documents whose truthy `categoryId` is
this category's id. -/
def listCategories (s : Store) : List CategoryView :=
  let categoryDocs := getDocumentsByCollection s .categories
  let newsDocs := getDocumentsByCollection s .news
  categoryDocs.map (fun doc =>
    { id := doc.id
      name := strD doc.metadata.name ""
      description := strD doc.metadata.description ""
      icon := strD doc.metadata.icon ""
      slug := strD doc.metadata.slug ""
      articleCount := (newsDocs.filter (fun n => truthy n.metadata.categoryId = some doc.id)).length })

/-- Population of one comment by the part_006 flat comments route: author
resolved through the lookup map, `role || ''`. -/
def populateFlatComment (userDocs : List Doc) (doc : Doc) : FlatComment :=
  let authId := doc.metadata.authorId
  let authorDoc := match truthy authId with
    | some a => createLookupMap userDocs a
    | none => none
  { id := doc.id
    content := doc.content
    newsId := strD doc.metadata.newsId ""
    authorId := authId
    parentId := truthy doc.metadata.parentId
    likeCount := natD doc.metadata.likeCount 0
    created_at := doc.created_at
    depth := doc.depth
    children := doc.children
    author := authorDoc.map userView }

/-- `GET /api/news/comments` (part_006 variant): merged comments filtered
by strict equality on `metadata.newsId`, stable-sorted by `created_at`
ascending, populated flat (no tree assembly in this variant). -/
def listCommentsFlat (s : Store) (newsId : String) : List FlatComment :=
  let commentDocs := getDocumentsByCollection s .comments
  let userDocs := getDocumentsByCollection s .users
  let comments := commentDocs.filter (fun c => c.metadata.newsId = some newsId)
  (sortAscBy (fun d => d.created_at) comments).map (populateFlatComment userDocs)

/-- Source helper `populateComment` (legacy variant): author resolved with
`users.find` (first match), `role || 'guest'`. -/
def populateComment (users : List Doc) (doc : Doc) : FlatComment :=
  let authorDoc : Option Doc := match doc.metadata.authorId with
    | some a => users.find? (fun u => u.id = a)
    | none => none
  { id := doc.id
    content := doc.content
    newsId := strD doc.metadata.newsId ""
    authorId := doc.metadata.authorId
    parentId := truthy doc.metadata.parentId
    likeCount := natD doc.metadata.likeCount 0
    created_at := doc.created_at
    depth := doc.depth
    children := doc.children
    author := authorDoc.map userViewLegacy }

/-- A populated comment together with its `replies` forest. -/
inductive CommentTree where
  | node (comment : FlatComment) (replies : List CommentTree)
  deriving Repr

/-- The comment at the root of a tree. -/
def CommentTree.comment : CommentTree → FlatComment
  | .node c _ => c

/-- The direct replies of a tree. -/
def CommentTree.replies : CommentTree → List CommentTree
  | .node _ rs => rs

/-- The direct children of a comment id within a populated comment list,
preserving the list's order. -/
def childrenOf (all : List FlatComment) (pid : String) : List FlatComment :=
  all.filter (fun c => c.parentId = some pid)

/-- Recursive assembly of one comment's subtree.  The route builds the
forest by pushing each populated comment onto its parent's `replies` array
in sorted iteration order; on the acyclic, duplicate-id-free comment lists
the data admits (a parent exists before its reply and ids are unique) this
equals the recursion below, whose depth is bounded by the number of
comments, used here as fuel. -/
def buildNode (all : List FlatComment) : Nat → FlatComment → CommentTree
  | 0, c => .node c []
  | fuel + 1, c => .node c ((childrenOf all c.id).map (buildNode all fuel))

/-- A populated comment is a root when its (truthiness-normalised)
`parentId` is `null` or does not resolve to any fetched comment id. -/
def isRootComment (all : List FlatComment) (c : FlatComment) : Bool :=
  match c.parentId with
  | some p => ¬ (all.map (fun x => x.id)).contains p
  | none => true

/-- The nested comment structure built by the legacy tree route. -/
def buildForest (all : List FlatComment) : List CommentTree :=
  (all.filter (isRootComment all)).map (buildNode all all.length)

/-- The comment documents the legacy tree route fetches: the comments
bucket of the legacy root file, filtered by strict equality on
`metadata.newsId` when the query parameter is truthy. -/
def treeCommentDocs (s : Store) (newsId : String) : List Doc :=
  let comments := parseDocumentsByCollection s.rootDocs .comments
  if newsId = "" then comments
  else comments.filter (fun c => c.metadata.newsId = some newsId)

/-- The flat populated comment list of the legacy tree route: fetched
documents stable-sorted by `created_at` ascending, then populated. -/
def treeComments (s : Store) (newsId : String) : List FlatComment :=
  (sortAscBy (fun d => d.created_at) (treeCommentDocs s newsId)).map
    (populateComment (parseDocumentsByCollection s.rootDocs .users))

/-- `GET /api/news/comments` (legacy tree variant): comments and users come
from the legacy root file via `parseDocumentsByCollection`; a truthy
`newsId` filters by strict equality; comments are stable-sorted by
`created_at` ascending, populated, and assembled into a forest. -/
def listCommentsTree (s : Store) (newsId : String) : List CommentTree :=
  buildForest (treeComments s newsId)

/-- A lowercase ASCII letter or digit. -/
def isLowerAlnum (c : Char) : Bool :=
  (Char.ofNat 97 ≤ c && c ≤ Char.ofNat 122) || c.isDigit

/-- A character allowed by the category-code pattern `[a-z0-9_-]`
(underscore is code point 95, hyphen 45). -/
def isCodeChar (c : Char) : Bool :=
  isLowerAlnum c || c = Char.ofNat 95 || c = Char.ofNat 45

/-- The category-code test `/^[a-z0-9_-]+$/`: nonempty, every character in
the class. -/
def validCode (code : String) : Bool :=
  code ≠ "" && code.toList.all isCodeChar

/-- The valid user roles. -/
def validRole (r : String) : Bool :=
  r = "admin" || r = "editor" || r = "reader" || r = "guest"

/-- `POST /api/news/articles` (part_006 variant).  The generated article id
and the `Date.now()` timestamp are passed as parameters.  Required-field
checks come first, then both foreign keys are validated against the freshly
merged target collections (category first); only then is the new document
appended to `news/documents.jsonl`. -/
def createArticle (s : Store) (newId : String) (now : Nat)
    (title content categoryId authorId : String) (status : Option String)
    (tags : List String) : Except NewsError Doc × Store :=
  let statusV := status.getD "draft"
  if title = "" ∨ content = "" then
    (.error (.ValidationError "Title and content are required"), s)
  else if categoryId = "" ∨ authorId = "" then
    (.error (.ValidationError "categoryId and authorId are required (foreign keys)"), s)
  else
    let categories := getDocumentsByCollection s .categories
    let users := getDocumentsByCollection s .users
    if ¬ categories.any (fun c => c.id = categoryId) then
      (.error (.ForeignKeyViolation "categoryId" categoryId "categories"), s)
    else if ¬ users.any (fun u => u.id = authorId) then
      (.error (.ForeignKeyViolation "authorId" authorId "users"), s)
    else
      let newArticle : Doc :=
        { id := newId
          content := title ++ "\n\n" ++ content
          content_type := "news"
          parent_id := none
          children := []
          depth := 0
          metadata :=
            { title := some title
              categoryId := some categoryId
              authorId := some authorId
              status := some statusV
              publishedAt := if statusV = "published" then some now else none
              viewCount := some 0
              likeCount := some 0
              collectionTag := some "news"
              foreignKeys :=
                [{ field := "categoryId", targetCollection := "categories", onDelete := "restrict" },
                 { field := "authorId", targetCollection := "users", onDelete := "set_null" }] }
          tags := "news" :: tags
          created_at := now
          last_accessed_at := now
          access_count := 0 }
      (.ok newArticle, writeCollectionFile s .news (readCollectionFile s .news ++ [newArticle]))

/-- `POST /api/news/comments` (part_006 variant).  All three foreign keys
are validated against the merged collections (parent only when truthy); the
new comment is then appended to the legacy shared `documents.jsonl` at the
store root, not to `comments/documents.jsonl`. -/
def createComment (s : Store) (newId : String) (now : Nat)
    (newsId authorId content : String) (parentId : Option String) :
    Except NewsError Doc × Store :=
  let pid := truthy parentId
  if content = "" then
    (.error (.ValidationError "Content is required"), s)
  else if newsId = "" ∨ authorId = "" then
    (.error (.ValidationError "newsId and authorId are required (foreign keys)"), s)
  else
    let newsDocs := getDocumentsByCollection s .news
    let users := getDocumentsByCollection s .users
    let comments := getDocumentsByCollection s .comments
    let parentExists : Bool := match pid with
      | some p => comments.any (fun c => c.id = p)
      | none => true
    if ¬ newsDocs.any (fun n => n.id = newsId) then
      (.error (.ForeignKeyViolation "newsId" newsId "news"), s)
    else if ¬ users.any (fun u => u.id = authorId) then
      (.error (.ForeignKeyViolation "authorId" authorId "users"), s)
    else if parentExists = false then
      (.error (.ForeignKeyViolation "parentId" (parentId.getD "") "comments"), s)
    else
      let newComment : Doc :=
        { id := newId
          content := content
          content_type := "comment"
          parent_id := pid
          children := []
          depth := if pid.isSome then 1 else 0
          metadata :=
            { newsId := some newsId
              authorId := some authorId
              parentId := parentId
              likeCount := some 0
              collectionTag := some "comments"
              foreignKeys :=
                [{ field := "newsId", targetCollection := "news", onDelete := "cascade" },
                 { field := "authorId", targetCollection := "users", onDelete := "set_null" },
                 { field := "parentId", targetCollection := "comments", onDelete := "cascade" }] }
          tags := if pid.isSome then ["comment", "reply"] else ["comment"]
          created_at := now
          last_accessed_at := now
          access_count := 0 }
      (.ok newComment, { s with rootDocs := s.rootDocs ++ [newComment] })

/-- The category document `POST /api/news/categories` constructs before
persisting. -/
def newCategoryDoc (now : Nat) (name description icon categorySlug code : String) : Doc :=
  { id := "cat_" ++ code
    content := name ++ " - " ++ description
    content_type := "category"
    parent_id := none
    children := []
    depth := 0
    metadata :=
      { name := some name
        description := some description
        icon := some icon
        slug := some categorySlug
        collectionTag := some "categories" }
    tags := ["category"]
    created_at := now
    last_accessed_at := now
    access_count := 0 }

/-- `POST /api/news/categories` (part_006 variant).  Field and code
validation, conflict check on the derived id against the dedicated
categories file only (`readCollectionFile`), then append to
`categories/documents.jsonl`. -/
def createCategory (s : Store) (now : Nat) (name description icon : String)
    (slug : Option String) (code : String) : Except NewsError PopCategory × Store :=
  if name = "" ∨ description = "" ∨ icon = "" then
    (.error (.ValidationError "Name, description and icon are required"), s)
  else if code = "" then
    (.error (.ValidationError "Category code is required"), s)
  else if ¬ validCode code then
    (.error (.ValidationError "Category code must only contain lowercase letters, numbers, underscores and hyphens"), s)
  else
    let categorySlug := strD slug code
    let categoryId := "cat_" ++ code
    let existingCategories := readCollectionFile s .categories
    if existingCategories.any (fun c => c.id = categoryId) then
      (.error (.ConflictError ("Category with ID " ++ categoryId ++ " already exists")), s)
    else
      let newCategory := newCategoryDoc now name description icon categorySlug code
      (.ok { id := categoryId, name := name, description := description,
             icon := icon, slug := categorySlug },
       writeCollectionFile s .categories (existingCategories ++ [newCategory]))

/-- The user-id stem derived from the name:
`name.toLowerCase().replace(/[^a-z0-9]/g, '_').substring(0, 20)`. -/
def userCodeOf (name : String) : String :=
  String.mk (((name.toLower).toList.map
    (fun c => if isLowerAlnum c then c else Char.ofNat 95)).take 20)

/-- `POST /api/news/users` (part_006 variant).  The time-based id suffix
(`Date.now().toString(36)`) is passed as a parameter.  Required fields and
role enum are validated, the duplicate-email check runs against the
dedicated users file only, then the new user is appended to
`users/documents.jsonl`. -/
def createUser (s : Store) (nowSuffix : String) (now : Nat)
    (name email avatar role : String) : Except NewsError PopUser × Store :=
  if name = "" ∨ email = "" ∨ role = "" then
    (.error (.ValidationError "Name, email and role are required"), s)
  else if ¬ validRole role then
    (.error (.ValidationError "Invalid role. Must be one of: admin, editor, reader, guest"), s)
  else
    let userCode := userCodeOf name
    let userId := "user_" ++ userCode ++ "_" ++ nowSuffix
    let existingUsers := readCollectionFile s .users
    if existingUsers.any (fun u => u.metadata.email = some email) then
      (.error (.ConflictError ("User with email " ++ email ++ " already exists")), s)
    else
      let avatarV := if avatar = ""
        then "https://api.dicebear.com/7.x/avataaars/svg?seed=" ++ userCode
        else avatar
      let newUser : Doc :=
        { id := userId
          content := role ++ " " ++ name
          content_type := "user"
          parent_id := none
          children := []
          depth := 0
          metadata :=
            { name := some name
              email := some email
              avatar := some avatarV
              role := some role
              collectionTag := some "users" }
          tags := ["user", role]
          created_at := now
          last_accessed_at := now
          access_count := 0 }
      (.ok { id := userId, name := name, email := email, avatar := avatarV, role := role },
       writeCollectionFile s .users (existingUsers ++ [newUser]))

/-- Replace the first element satisfying the predicate, as the source's
`findIndex` followed by in-place mutation does. -/
def updateFirst {α : Type} (p : α → Bool) (f : α → α) : List α → List α
  | [] => []
  | x :: xs => if p x then f x :: xs else x :: updateFirst p f xs

/-- The in-place mutation of one category by `PUT /api/news/categories/:id`:
truthy fields overwrite metadata, the content line is rebuilt from the
(template-literal-coerced) name and description, and `last_accessed_at` is
refreshed. -/
def applyCategoryUpdate (now : Nat) (name description icon slug : Option String)
    (c : Doc) : Doc :=
  let m := c.metadata
  let m := match truthy name with
    | some v => { m with name := some v }
    | none => m
  let m := match truthy description with
    | some v => { m with description := some v }
    | none => m
  let m := match truthy icon with
    | some v => { m with icon := some v }
    | none => m
  let m := match truthy slug with
    | some v => { m with slug := some v }
    | none => m
  { c with
    metadata := m
    content := jsStr m.name ++ " - " ++ jsStr m.description
    last_accessed_at := now }

/-- `PUT /api/news/categories/:id` (part_006 variant): operates on the
dedicated categories file only; 404 when the id is not there; otherwise the
first matching document is updated and the whole file rewritten. -/
def updateCategory (s : Store) (now : Nat) (id : String)
    (name description icon slug : Option String) : Except NewsError Doc × Store :=
  let categories := readCollectionFile s .categories
  match categories.find? (fun c => c.id = id) with
  | none => (.error (.NotFoundError "Category not found"), s)
  | some found =>
      let g := applyCategoryUpdate now name description icon slug
      (.ok (g found), writeCollectionFile s .categories (updateFirst (fun c => c.id = id) g categories))

/-- The in-place mutation of one user by `PUT /api/news/users/:id`: truthy
fields overwrite metadata, a truthy role also rewrites the tags, and the
content line is rebuilt from the (template-literal-coerced) role and
name. -/
def applyUserUpdate (now : Nat) (name email avatar role : Option String)
    (u : Doc) : Doc :=
  let m := u.metadata
  let m := match truthy name with
    | some v => { m with name := some v }
    | none => m
  let m := match truthy email with
    | some v => { m with email := some v }
    | none => m
  let m := match truthy avatar with
    | some v => { m with avatar := some v }
    | none => m
  let m := match truthy role with
    | some v => { m with role := some v }
    | none => m
  let u2 := { u with
    metadata := m
    content := jsStr m.role ++ " " ++ jsStr m.name
    last_accessed_at := now }
  match truthy role with
  | some v => { u2 with tags := ["user", v] }
  | none => u2

/-- `PUT /api/news/users/:id` (part_006 variant): a truthy role must be a
valid enum value; the user is looked up in the dedicated users file only
(404 otherwise); a truthy email must not belong to another user in that
file; then the first matching document is updated and the file
rewritten. -/
def updateUser (s : Store) (now : Nat) (id : String)
    (name email avatar role : Option String) : Except NewsError Doc × Store :=
  let roleBad : Bool := match truthy role with
    | some r => ! validRole r
    | none => false
  if roleBad then
    (.error (.ValidationError "Invalid role. Must be one of: admin, editor, reader, guest"), s)
  else
    let users := readCollectionFile s .users
    match users.find? (fun u => u.id = id) with
    | none => (.error (.NotFoundError "User not found"), s)
    | some found =>
        let emailConflict := match truthy email with
          | some _ => users.any (fun u => u.id ≠ id && u.metadata.email = email)
          | none => false
        if emailConflict then
          (.error (.ConflictError "User with this email already exists"), s)
        else
          let g := applyUserUpdate now name email avatar role
          (.ok (g found), writeCollectionFile s .users (updateFirst (fun u => u.id = id) g users))

/-- `DELETE /api/news/categories/:id` (part_006 variant).  The restrict
check scans the merged news collection first and aborts before any read or
write of the categories file; otherwise the category is removed from the
dedicated categories file (404 when absent there) and the file
rewritten. -/
def deleteCategory (s : Store) (id : String) : Except NewsError Unit × Store :=
  let newsDocs := getDocumentsByCollection s .news
  if newsDocs.any (fun n => n.metadata.categoryId = some id) then
    (.error (.ReferentialIntegrityError
      ("Cannot delete category " ++ id ++ ": it is referenced by news articles (restrict constraint)")), s)
  else
    let categories := readCollectionFile s .categories
    let filteredCategories := categories.filter (fun c => c.id ≠ id)
    if filteredCategories.length = categories.length then
      (.error (.NotFoundError "Category not found"), s)
    else
      (.ok (), writeCollectionFile s .categories filteredCategories)

/-- `DELETE /api/news/users/:id` (part_006 variant).  Removes the user from
the dedicated users file (404 when absent there) and rewrites it.  The
source explicitly applies no cascade or set_null effects to referencing
news or comments. -/
def deleteUser (s : Store) (id : String) : Except NewsError Unit × Store :=
  let users := readCollectionFile s .users
  let filteredUsers := users.filter (fun u => u.id ≠ id)
  if filteredUsers.length = users.length then
    (.error (.NotFoundError "User not found"), s)
  else
    (.ok (), writeCollectionFile s .users filteredUsers)

/-- `DELETE /api/news/articles/:id` (part_006 variant).  The article is
removed from the dedicated news file (404 when that file is absent or the
id is not in it) and the file rewritten; then the merged comments are
filtered by `metadata.newsId !== id`, and — only when the dedicated
comments file already exists — that file is rewritten with the filtered
merged list.  The legacy root file is never rewritten. -/
def deleteArticle (s : Store) (id : String) : Except NewsError Unit × Store :=
  match s.news with
  | none => (.error (.NotFoundError "News collection not found"), s)
  | some newsDocs =>
      let filteredDocs := newsDocs.filter (fun n => n.id ≠ id)
      if filteredDocs.length = newsDocs.length then
        (.error (.NotFoundError "Article not found"), s)
      else
        let s1 := { s with news := some filteredDocs }
        let commentsDocs := getDocumentsByCollection s1 .comments
        let filteredComments := commentsDocs.filter (fun c => c.metadata.newsId ≠ some id)
        if filteredComments.length < commentsDocs.length then
          match s1.comments with
          | some _ => (.ok (), { s1 with comments := some filteredComments })
          | none => (.ok (), s1)
        else
          (.ok (), s1)

/-! ### General lemmas about the embedded operations -/

theorem mem_insertDescBy {α : Type} (key : α → Nat) (d b : α) (l : List α) :
    b ∈ insertDescBy key d l ↔ b = d ∨ b ∈ l := by
  induction l with
  | nil => simp [insertDescBy]
  | cons x xs ih =>
    simp only [insertDescBy]
    split
    · simp only [List.mem_cons, ih]
      tauto
    · simp [List.mem_cons]

theorem perm_insertDescBy {α : Type} (key : α → Nat) (d : α) (l : List α) :
    List.Perm (insertDescBy key d l) (d :: l) := by
  induction l with
  | nil => simp [insertDescBy]
  | cons x xs ih =>
    simp only [insertDescBy]
    split
    · exact List.Perm.trans (List.Perm.cons x ih) (List.Perm.swap d x xs)
    · exact List.Perm.refl _

theorem pairwise_insertDescBy {α : Type} (key : α → Nat) (d : α) (l : List α)
    (h : l.Pairwise (fun a b => key b ≤ key a)) :
    (insertDescBy key d l).Pairwise (fun a b => key b ≤ key a) := by
  induction l with
  | nil => simp [insertDescBy]
  | cons x xs ih =>
    rw [List.pairwise_cons] at h
    obtain ⟨hx, hxs⟩ := h
    simp only [insertDescBy]
    split
    · rename_i hgt
      rw [List.pairwise_cons]
      refine ⟨fun b hb => ?_, ih hxs⟩
      rcases (mem_insertDescBy key d b xs).mp hb with rfl | hbx
      · omega
      · exact hx b hbx
    · rename_i hle
      rw [List.pairwise_cons]
      refine ⟨fun b hb => ?_, List.pairwise_cons.mpr ⟨hx, hxs⟩⟩
      rcases List.mem_cons.mp hb with rfl | hbx
      · omega
      · have := hx b hbx
        omega

theorem perm_sortDescBy {α : Type} (key : α → Nat) (l : List α) :
    List.Perm (sortDescBy key l) l := by
  induction l with
  | nil => exact List.Perm.refl _
  | cons x xs ih =>
    exact List.Perm.trans (perm_insertDescBy key x (sortDescBy key xs)) (List.Perm.cons x ih)

theorem pairwise_sortDescBy {α : Type} (key : α → Nat) (l : List α) :
    (sortDescBy key l).Pairwise (fun a b => key b ≤ key a) := by
  induction l with
  | nil => simp [sortDescBy]
  | cons x xs ih => exact pairwise_insertDescBy key x (sortDescBy key xs) ih

theorem mem_insertAscBy {α : Type} (key : α → Nat) (d b : α) (l : List α) :
    b ∈ insertAscBy key d l ↔ b = d ∨ b ∈ l := by
  induction l with
  | nil => simp [insertAscBy]
  | cons x xs ih =>
    simp only [insertAscBy]
    split
    · simp only [List.mem_cons, ih]
      tauto
    · simp [List.mem_cons]

theorem perm_insertAscBy {α : Type} (key : α → Nat) (d : α) (l : List α) :
    List.Perm (insertAscBy key d l) (d :: l) := by
  induction l with
  | nil => simp [insertAscBy]
  | cons x xs ih =>
    simp only [insertAscBy]
    split
    · exact List.Perm.trans (List.Perm.cons x ih) (List.Perm.swap d x xs)
    · exact List.Perm.refl _

theorem pairwise_insertAscBy {α : Type} (key : α → Nat) (d : α) (l : List α)
    (h : l.Pairwise (fun a b => key a ≤ key b)) :
    (insertAscBy key d l).Pairwise (fun a b => key a ≤ key b) := by
  induction l with
  | nil => simp [insertAscBy]
  | cons x xs ih =>
    rw [List.pairwise_cons] at h
    obtain ⟨hx, hxs⟩ := h
    simp only [insertAscBy]
    split
    · rename_i hlt
      rw [List.pairwise_cons]
      refine ⟨fun b hb => ?_, ih hxs⟩
      rcases (mem_insertAscBy key d b xs).mp hb with rfl | hbx
      · omega
      · exact hx b hbx
    · rename_i hge
      rw [List.pairwise_cons]
      refine ⟨fun b hb => ?_, List.pairwise_cons.mpr ⟨hx, hxs⟩⟩
      rcases List.mem_cons.mp hb with rfl | hbx
      · omega
      · have := hx b hbx
        omega

theorem perm_sortAscBy {α : Type} (key : α → Nat) (l : List α) :
    List.Perm (sortAscBy key l) l := by
  induction l with
  | nil => exact List.Perm.refl _
  | cons x xs ih =>
    exact List.Perm.trans (perm_insertAscBy key x (sortAscBy key xs)) (List.Perm.cons x ih)

theorem pairwise_sortAscBy {α : Type} (key : α → Nat) (l : List α) :
    (sortAscBy key l).Pairwise (fun a b => key a ≤ key b) := by
  induction l with
  | nil => simp [sortAscBy]
  | cons x xs ih => exact pairwise_insertAscBy key x (sortAscBy key xs) ih

theorem filter_insertAscBy_eq {α : Type} (key : α → Nat) (d : α) (l : List α)
    (k : Nat) (h : key d = k) :
    (insertAscBy key d l).filter (fun a => key a = k) =
      d :: l.filter (fun a => key a = k) := by
  induction l with
  | nil => simp [insertAscBy, h]
  | cons x xs ih =>
    simp only [insertAscBy]
    split
    · rename_i hlt
      have hx : ¬ key x = k := by omega
      simp only [List.filter_cons, hx, decide_False, if_false, ih]
      simp [hx]
    · simp [List.filter_cons, h]

theorem filter_insertAscBy_ne {α : Type} (key : α → Nat) (d : α) (l : List α)
    (k : Nat) (h : ¬ key d = k) :
    (insertAscBy key d l).filter (fun a => key a = k) =
      l.filter (fun a => key a = k) := by
  induction l with
  | nil => simp [insertAscBy, h]
  | cons x xs ih =>
    simp only [insertAscBy]
    split
    · simp only [List.filter_cons, ih]
    · simp [List.filter_cons, h]

/-- Stability of the ascending sort: within each key class the sorted
output keeps exactly the input's order — the formal content of "ties are
kept in stored order". -/
theorem sortAscBy_stable {α : Type} (key : α → Nat) (l : List α) (k : Nat) :
    (sortAscBy key l).filter (fun a => key a = k) = l.filter (fun a => key a = k) := by
  induction l with
  | nil => rfl
  | cons x xs ih =>
    simp only [sortAscBy]
    by_cases h : key x = k
    · rw [filter_insertAscBy_eq key x _ k h, ih]
      simp [List.filter_cons, h]
    · rw [filter_insertAscBy_ne key x _ k h, ih]
      simp [List.filter_cons, h]

theorem mem_getDocumentsByCollection (s : Store) (c : Collection) (d : Doc) :
    d ∈ getDocumentsByCollection s c ↔
      d ∈ readCollectionFile s c ∨
      (d ∈ s.rootDocs ∧ d.metadata.collectionTag = some c.name ∧
        d.id ∉ (readCollectionFile s c).map Doc.id) := by
  simp only [getDocumentsByCollection, List.mem_append, List.mem_filter,
    decide_eq_true_eq, List.elem_iff, List.mem_map, not_exists]
  tauto

theorem createLookupMap_eq_none (docs : List Doc) (k : String)
    (h : ∀ d ∈ docs, d.id ≠ k) : createLookupMap docs k = none := by
  apply List.find?_eq_none.mpr
  intro x hx
  simpa using h x (List.mem_reverse.mp hx)

theorem getArticle_found (s : Store) (aid : String) (a : Doc)
    (h : (getDocumentsByCollection s .news).find? (fun d => d.id = aid) = some a) :
    getArticle s aid = .ok (populateArticle (getDocumentsByCollection s .categories)
      (getDocumentsByCollection s .users) a) := by
  simp only [getArticle, h]

/-! ### Concrete fixtures used by witnesses and counterexamples -/

/-- A news article in the dedicated news file referencing category `cat_c`
and author `user_u`, as `createArticle` would persist it. -/
def w1Article : Doc :=
  { id := "news_1", content := "T\n\nB", content_type := "news",
    metadata :=
      { title := some "T", categoryId := some "cat_c", authorId := some "user_u",
        status := some "draft", viewCount := some 0, likeCount := some 0,
        collectionTag := some "news",
        foreignKeys :=
          [{ field := "categoryId", targetCollection := "categories", onDelete := "restrict" },
           { field := "authorId", targetCollection := "users", onDelete := "set_null" }] },
    tags := ["news"], created_at := 10, last_accessed_at := 10 }

/-- The category `cat_c` in the dedicated categories file. -/
def w1Category : Doc :=
  { id := "cat_c", content := "C - D", content_type := "category",
    metadata :=
      { name := some "C", description := some "D", icon := some "I",
        slug := some "c", collectionTag := some "categories" },
    tags := ["category"], created_at := 5, last_accessed_at := 5 }

/-- A store in which `cat_c` is referenced by the article `news_1`. -/
def w1Store : Store :=
  { rootDocs := [], categories := some [w1Category], news := some [w1Article] }

/-- A user in the dedicated users file. -/
def w4User : Doc :=
  { id := "user_u", content := "editor U", content_type := "user",
    metadata :=
      { name := some "U", email := some "u@example.com", avatar := some "a",
        role := some "editor", collectionTag := some "users" },
    tags := ["user", "editor"], created_at := 1, last_accessed_at := 1 }

/-- A store with one user and no categories at all. -/
def w4Store : Store := { rootDocs := [], users := some [w4User] }

/-! ### Claims -/

/-- C1: for every store state and category id, if at least one article in
the merged news collection has `metadata.categoryId` equal to that id, then
`deleteCategory` fails with the `ReferentialIntegrityError` naming the
restrict constraint and returns the store completely unchanged — the
category, the referencing article, and every other document are exactly as
before. -/
theorem deleteCategory_restrict_blocks (s : Store) (cid : String)
    (h : ∃ n ∈ getDocumentsByCollection s .news, n.metadata.categoryId = some cid) :
    deleteCategory s cid =
      (.error (.ReferentialIntegrityError
        ("Cannot delete category " ++ cid ++ ": it is referenced by news articles (restrict constraint)")), s) := by
  have hb : (getDocumentsByCollection s .news).any
      (fun n => n.metadata.categoryId = some cid) = true := by
    rw [List.any_eq_true]
    obtain ⟨n, hn, he⟩ := h
    exact ⟨n, hn, by simp [he]⟩
  simp [deleteCategory, hb]

/-- C1 witness: in the concrete store `w1Store`, where article `news_1`
references category `cat_c`, deleting `cat_c` yields the restrict error and
leaves the store untouched. -/
theorem deleteCategory_restrict_blocks_witness :
    deleteCategory w1Store "cat_c" =
      (.error (.ReferentialIntegrityError
        ("Cannot delete category " ++ "cat_c" ++ ": it is referenced by news articles (restrict constraint)")), w1Store) :=
  deleteCategory_restrict_blocks w1Store "cat_c" ⟨w1Article, by decide, by decide⟩

/-- C4: for every `createArticle` request with title, content, categoryId
and authorId present, if the categoryId matches no document of the merged
categories collection, the operation fails with the `ForeignKeyViolation`
identifying the field, the offending id and the target collection, and the
store is returned completely unchanged (nothing appended to news). -/
theorem createArticle_fk_violation (s : Store) (newId : String) (now : Nat)
    (title content categoryId authorId : String) (status : Option String)
    (tags : List String)
    (htitle : title ≠ "") (hcontent : content ≠ "")
    (hcid : categoryId ≠ "") (haid : authorId ≠ "")
    (hfk : ∀ c ∈ getDocumentsByCollection s .categories, c.id ≠ categoryId) :
    createArticle s newId now title content categoryId authorId status tags =
      (.error (.ForeignKeyViolation "categoryId" categoryId "categories"), s) := by
  have hb : (getDocumentsByCollection s .categories).any
      (fun c => c.id = categoryId) = false := by
    refine List.any_eq_false.mpr ?_
    intro c hc
    simp [hfk c hc]
  simp [createArticle, htitle, hcontent, hcid, haid, hb]

/-- C4 witness: in the concrete store `w4Store` (no categories anywhere),
creating an article with category `cat_missing` fails with the foreign-key
violation naming the field, value and target, and the store is unchanged. -/
theorem createArticle_fk_violation_witness :
    createArticle w4Store "news_n" 50 "T" "B" "cat_missing" "user_u" none [] =
      (.error (.ForeignKeyViolation "categoryId" "cat_missing" "categories"), w4Store) :=
  createArticle_fk_violation w4Store "news_n" 50 "T" "B" "cat_missing" "user_u" none []
    (by decide) (by decide) (by decide) (by decide) (by decide)

/-- The article `news_a` in the dedicated news file, target of the C2
cascade scenario. -/
def c2Article : Doc :=
  { id := "news_a", content := "T\n\nB", content_type := "news",
    metadata :=
      { title := some "T", categoryId := some "cat_c", authorId := some "user_u",
        status := some "published", publishedAt := some 1000,
        viewCount := some 0, likeCount := some 0, collectionTag := some "news",
        foreignKeys :=
          [{ field := "categoryId", targetCollection := "categories", onDelete := "restrict" },
           { field := "authorId", targetCollection := "users", onDelete := "set_null" }] },
    tags := ["news"], created_at := 1000, last_accessed_at := 1000 }

/-- A root comment on `news_a`, persisted — as `createComment` persists all
comments — in the legacy shared root file. -/
def c2CommentRoot : Doc :=
  { id := "comment_c1", content := "first", content_type := "comment",
    parent_id := none, depth := 0,
    metadata :=
      { newsId := some "news_a", authorId := some "user_u", parentId := none,
        likeCount := some 0, collectionTag := some "comments",
        foreignKeys :=
          [{ field := "newsId", targetCollection := "news", onDelete := "cascade" },
           { field := "authorId", targetCollection := "users", onDelete := "set_null" },
           { field := "parentId", targetCollection := "comments", onDelete := "cascade" }] },
    tags := ["comment"], created_at := 1100, last_accessed_at := 1100 }

/-- A reply to `comment_c1` on the same article, also in the legacy shared
root file. -/
def c2CommentReply : Doc :=
  { id := "comment_c2", content := "reply", content_type := "comment",
    parent_id := some "comment_c1", depth := 1,
    metadata :=
      { newsId := some "news_a", authorId := some "user_u",
        parentId := some "comment_c1", likeCount := some 0,
        collectionTag := some "comments",
        foreignKeys :=
          [{ field := "newsId", targetCollection := "news", onDelete := "cascade" },
           { field := "authorId", targetCollection := "users", onDelete := "set_null" },
           { field := "parentId", targetCollection := "comments", onDelete := "cascade" }] },
    tags := ["comment", "reply"], created_at := 1200, last_accessed_at := 1200 }

/-- The C2 store: article in `news/documents.jsonl`, both comments in the
legacy root file, no `comments/documents.jsonl`. -/
def c2Store : Store :=
  { rootDocs := [c2CommentRoot, c2CommentReply], news := some [c2Article] }

/-- The store `deleteArticle` actually leaves behind: the article is gone
from the news file, but both comments survive in the legacy root file. -/
def c2StoreAfter : Store :=
  { rootDocs := [c2CommentRoot, c2CommentReply], news := some [] }

/-- C2 (failing-input evaluation): in `c2Store` — article `news_a` with
root comment `comment_c1` and reply `comment_c2`, both persisted where
`createComment` puts them — `deleteArticle` reports success and removes the
article, but the cascade never touches the legacy root file, so afterwards
`listComments(news_a)` still returns both comments and both comment ids
still resolve in the merged comments collection, contradicting the claimed
cascade closure. -/
theorem deleteArticle_cascade_gap :
    deleteArticle c2Store "news_a" = (.ok (), c2StoreAfter) ∧
    (listCommentsFlat c2StoreAfter "news_a").map (fun c => c.id) =
      ["comment_c1", "comment_c2"] ∧
    (getDocumentsByCollection c2StoreAfter .comments).any
      (fun c => c.id = "comment_c1") = true ∧
    (getDocumentsByCollection c2StoreAfter .comments).any
      (fun c => c.id = "comment_c2") = true := by
  refine ⟨by decide, by decide, by decide, by decide⟩

/-- The user `user_u` in the dedicated users file, author of `news_a`. -/
def c3User : Doc :=
  { id := "user_u", content := "editor E", content_type := "user",
    metadata :=
      { name := some "E", email := some "e@example.com", avatar := some "a",
        role := some "editor", collectionTag := some "users" },
    tags := ["user", "editor"], created_at := 500, last_accessed_at := 500 }

/-- The article `news_a` authored by `user_u`, in the dedicated news
file. -/
def c3Article : Doc :=
  { id := "news_a", content := "T\n\nB", content_type := "news",
    metadata :=
      { title := some "T", categoryId := some "cat_c", authorId := some "user_u",
        status := some "draft", viewCount := some 0, likeCount := some 0,
        collectionTag := some "news",
        foreignKeys :=
          [{ field := "categoryId", targetCollection := "categories", onDelete := "restrict" },
           { field := "authorId", targetCollection := "users", onDelete := "set_null" }] },
    tags := ["news"], created_at := 900, last_accessed_at := 900 }

/-- The C3 store: one user, one article authored by that user. -/
def c3Store : Store :=
  { rootDocs := [], users := some [c3User], news := some [c3Article] }

/-- The store after `deleteUser(user_u)`: the user is gone, the article
untouched (its `authorId` still `user_u`). -/
def c3StoreAfter : Store :=
  { rootDocs := [], users := some [], news := some [c3Article] }

/-- C3 counterexample: in `c3Store`, `deleteUser(user_u)` succeeds, yet the
article's persisted and returned `authorId` is still `user_u`, not `null`
— the claimed `set_null` effect does not happen. -/
theorem deleteUser_no_set_null_cex :
    deleteUser c3Store "user_u" = (.ok (), c3StoreAfter) ∧
    (okOf (getArticle c3StoreAfter "news_a")).map (fun a => a.authorId) =
      some (some "user_u") ∧
    (okOf (getArticle c3StoreAfter "news_a")).map (fun a => a.authorId) ≠
      some none := by
  refine ⟨by decide, by decide, by decide⟩

/-- C3 (amended): for every store, when `deleteUser(uid)` succeeds (the
user is in the dedicated users file and no legacy users-tagged document
shares the id), a news article whose `metadata.authorId` is `uid` keeps
that stale `authorId` — it is not set to null — while `getArticle` still
succeeds and populates `author` as `null` rather than erroring. -/
theorem deleteUser_keeps_stale_authorId (s : Store) (uid aid : String) (a : Doc)
    (huid : uid ≠ "")
    (hdel : (readCollectionFile s .users).any (fun u => u.id = uid) = true)
    (hlegacy : ∀ d ∈ s.rootDocs, d.metadata.collectionTag = some "users" → d.id ≠ uid)
    (hfind : (getDocumentsByCollection s .news).find? (fun d => d.id = aid) = some a)
    (hauth : a.metadata.authorId = some uid) :
    ∃ s2, deleteUser s uid = (.ok (), s2) ∧
      s2.rootDocs = s.rootDocs ∧ s2.news = s.news ∧
      ∃ art, getArticle s2 aid = .ok art ∧
        art.authorId = some uid ∧ art.author = none := by
  have hlen : ((readCollectionFile s .users).filter (fun u => u.id ≠ uid)).length ≠
      (readCollectionFile s .users).length := by
    intro heq
    have hall := List.filter_length_eq_length.mp heq
    obtain ⟨u, hu, hid⟩ := List.any_eq_true.mp hdel
    have hne := hall u hu
    simp only [decide_eq_true_eq] at hne hid
    exact hne hid
  refine ⟨writeCollectionFile s .users
    ((readCollectionFile s .users).filter (fun u => u.id ≠ uid)), ?_, rfl, rfl, ?_⟩
  · simp only [deleteUser]
    rw [if_neg hlen]
  · have hfind2 : (getDocumentsByCollection
        (writeCollectionFile s .users ((readCollectionFile s .users).filter (fun u => u.id ≠ uid)))
        .news).find? (fun d => d.id = aid) = some a := hfind
    refine ⟨_, getArticle_found _ _ _ hfind2, ?_, ?_⟩
    · simp [populateArticle, hauth]
    · have hnone : createLookupMap (getDocumentsByCollection
          (writeCollectionFile s .users ((readCollectionFile s .users).filter (fun u => u.id ≠ uid)))
          .users) uid = none := by
        apply createLookupMap_eq_none
        intro d hd
        rcases (mem_getDocumentsByCollection _ .users d).mp hd with hded | ⟨hroot, htag, _⟩
        · have hmem : d ∈ (readCollectionFile s .users).filter (fun u => u.id ≠ uid) := hded
          have := (List.mem_filter.mp hmem).2
          simpa using this
        · exact hlegacy d hroot htag
      simp [populateArticle, hauth, truthy, huid]
      simpa using hnone

/-- C3 witness: the amended theorem instantiated at the concrete store
`c3Store`: after deleting `user_u`, `getArticle(news_a)` succeeds with the
stale `authorId = user_u` and a populated `author` of null. -/
theorem deleteUser_keeps_stale_authorId_witness :
    ∃ s2, deleteUser c3Store "user_u" = (.ok (), s2) ∧
      s2.rootDocs = c3Store.rootDocs ∧ s2.news = c3Store.news ∧
      ∃ art, getArticle s2 "news_a" = .ok art ∧
        art.authorId = some "user_u" ∧ art.author = none :=
  deleteUser_keeps_stale_authorId c3Store "user_u" "news_a" c3Article
    (by decide) (by decide) (by decide) (by decide) (by decide)

/-- The C5 store: a user and an article (so a comment can be created) and
an existing, empty dedicated comments file. -/
def c5Store : Store :=
  { rootDocs := [], users := some [c3User], news := some [c3Article],
    comments := some [] }

/-- C5 counterexample: a successful `createComment` appends to the legacy
shared root `documents.jsonl` and leaves `comments/documents.jsonl`
untouched — the legacy file is written by a core create operation,
contradicting the claimed layout. -/
theorem createComment_writes_legacy_root_cex :
    isOk (createComment c5Store "comment_x" 2000 "news_a" "user_u" "hi" none).1 = true ∧
    (createComment c5Store "comment_x" 2000 "news_a" "user_u" "hi" none).2.comments =
      some [] ∧
    c5Store.rootDocs = [] ∧
    (createComment c5Store "comment_x" 2000 "news_a" "user_u" "hi" none).2.rootDocs ≠ [] := by
  refine ⟨by decide, by decide, by decide, by decide⟩

/-- C5 (amended): `createCategory`, `createUser` and `createArticle` write
only their own collection's `{collection}/documents.jsonl` (appending the
created document), leaving the legacy root file and every other collection
file untouched; `createComment` instead appends the created document to the
legacy shared `documents.jsonl` at the store root — which is therefore also
written, not only read — leaving all four subdirectory files untouched.  On
any failure every file is unchanged. -/
theorem creates_persistence_locations :
    (∀ s newId now title content categoryId authorId status tags,
      (createArticle s newId now title content categoryId authorId status tags).2.rootDocs = s.rootDocs ∧
      (createArticle s newId now title content categoryId authorId status tags).2.categories = s.categories ∧
      (createArticle s newId now title content categoryId authorId status tags).2.users = s.users ∧
      (createArticle s newId now title content categoryId authorId status tags).2.comments = s.comments ∧
      ((createArticle s newId now title content categoryId authorId status tags).2 = s ∨
        ∃ d, (createArticle s newId now title content categoryId authorId status tags).1 = .ok d ∧
          (createArticle s newId now title content categoryId authorId status tags).2 =
            writeCollectionFile s .news (readCollectionFile s .news ++ [d]))) ∧
    (∀ s now name description icon slug code,
      (createCategory s now name description icon slug code).2.rootDocs = s.rootDocs ∧
      (createCategory s now name description icon slug code).2.users = s.users ∧
      (createCategory s now name description icon slug code).2.news = s.news ∧
      (createCategory s now name description icon slug code).2.comments = s.comments ∧
      ((createCategory s now name description icon slug code).2 = s ∨
        ∃ d, (createCategory s now name description icon slug code).2 =
          writeCollectionFile s .categories (readCollectionFile s .categories ++ [d]))) ∧
    (∀ s nowSuffix now name email avatar role,
      (createUser s nowSuffix now name email avatar role).2.rootDocs = s.rootDocs ∧
      (createUser s nowSuffix now name email avatar role).2.categories = s.categories ∧
      (createUser s nowSuffix now name email avatar role).2.news = s.news ∧
      (createUser s nowSuffix now name email avatar role).2.comments = s.comments ∧
      ((createUser s nowSuffix now name email avatar role).2 = s ∨
        ∃ d, (createUser s nowSuffix now name email avatar role).2 =
          writeCollectionFile s .users (readCollectionFile s .users ++ [d]))) ∧
    (∀ s newId now newsId authorId content parentId,
      (createComment s newId now newsId authorId content parentId).2.categories = s.categories ∧
      (createComment s newId now newsId authorId content parentId).2.users = s.users ∧
      (createComment s newId now newsId authorId content parentId).2.news = s.news ∧
      (createComment s newId now newsId authorId content parentId).2.comments = s.comments ∧
      ((createComment s newId now newsId authorId content parentId).2 = s ∨
        ∃ d, (createComment s newId now newsId authorId content parentId).1 = .ok d ∧
          (createComment s newId now newsId authorId content parentId).2.rootDocs =
            s.rootDocs ++ [d])) := by
  refine ⟨?_, ?_, ?_, ?_⟩
  · intro s newId now title content categoryId authorId status tags
    simp only [createArticle]
    split
    · exact ⟨rfl, rfl, rfl, rfl, Or.inl rfl⟩
    split
    · exact ⟨rfl, rfl, rfl, rfl, Or.inl rfl⟩
    split
    · exact ⟨rfl, rfl, rfl, rfl, Or.inl rfl⟩
    split
    · exact ⟨rfl, rfl, rfl, rfl, Or.inl rfl⟩
    · exact ⟨rfl, rfl, rfl, rfl, Or.inr ⟨_, rfl, rfl⟩⟩
  · intro s now name description icon slug code
    simp only [createCategory]
    split
    · exact ⟨rfl, rfl, rfl, rfl, Or.inl rfl⟩
    split
    · exact ⟨rfl, rfl, rfl, rfl, Or.inl rfl⟩
    split
    · exact ⟨rfl, rfl, rfl, rfl, Or.inl rfl⟩
    split
    · exact ⟨rfl, rfl, rfl, rfl, Or.inl rfl⟩
    · exact ⟨rfl, rfl, rfl, rfl, Or.inr ⟨_, rfl⟩⟩
  · intro s nowSuffix now name email avatar role
    simp only [createUser]
    split
    · exact ⟨rfl, rfl, rfl, rfl, Or.inl rfl⟩
    split
    · exact ⟨rfl, rfl, rfl, rfl, Or.inl rfl⟩
    split
    · exact ⟨rfl, rfl, rfl, rfl, Or.inl rfl⟩
    · exact ⟨rfl, rfl, rfl, rfl, Or.inr ⟨_, rfl⟩⟩
  · intro s newId now newsId authorId content parentId
    simp only [createComment]
    split
    · exact ⟨rfl, rfl, rfl, rfl, Or.inl rfl⟩
    split
    · exact ⟨rfl, rfl, rfl, rfl, Or.inl rfl⟩
    split
    · exact ⟨rfl, rfl, rfl, rfl, Or.inl rfl⟩
    split
    · exact ⟨rfl, rfl, rfl, rfl, Or.inl rfl⟩
    split
    · exact ⟨rfl, rfl, rfl, rfl, Or.inl rfl⟩
    · exact ⟨rfl, rfl, rfl, rfl, Or.inr ⟨_, rfl, rfl⟩⟩

/-- A legacy-root comment document with id `y`. -/
def c6DupOne : Doc :=
  { id := "y", content := "one", content_type := "comment",
    metadata := { collectionTag := some "comments" }, created_at := 1 }

/-- A second legacy-root comment document with the same id `y`. -/
def c6DupTwo : Doc :=
  { id := "y", content := "two", content_type := "comment",
    metadata := { collectionTag := some "comments" }, created_at := 2 }

/-- The C6 store: the legacy shared file holds two comments with the same
id; there is no dedicated comments file. -/
def c6Store : Store := { rootDocs := [c6DupOne, c6DupTwo] }

/-- C6 counterexample: the de-duplication set is computed once from the
dedicated file only, so two legacy-file documents sharing an id both
survive the merge — the id `y` occurs twice in the returned sequence,
refuting the claimed no-duplicates consequence. -/
theorem getDocumentsByCollection_duplicate_id_cex :
    (getDocumentsByCollection c6Store .comments).map Doc.id = ["y", "y"] ∧
    ¬ ((getDocumentsByCollection c6Store .comments).map Doc.id).Nodup := by
  refine ⟨by decide, by decide⟩

/-- C6 (amended): the collection reader returns exactly the dedicated-file
documents in file order followed by the legacy-file documents tagged for
the collection whose id is not among the dedicated-file ids (dedicated file
wins); membership is characterised accordingly; and the returned ids are
duplicate-free provided each source file is itself duplicate-free — without
that proviso a duplicated id inside the legacy (or dedicated) file is
returned twice. -/
theorem getDocumentsByCollection_merge_spec (s : Store) (c : Collection) :
    getDocumentsByCollection s c =
      readCollectionFile s c ++
        (s.rootDocs.filter (fun d => d.metadata.collectionTag = some c.name)).filter
          (fun d => ¬ ((readCollectionFile s c).map (fun x => x.id)).contains d.id) ∧
    (∀ d, d ∈ getDocumentsByCollection s c ↔
      d ∈ readCollectionFile s c ∨
      (d ∈ s.rootDocs ∧ d.metadata.collectionTag = some c.name ∧
        d.id ∉ (readCollectionFile s c).map Doc.id)) ∧
    (((readCollectionFile s c).map Doc.id).Nodup →
      ((s.rootDocs.filter (fun d => d.metadata.collectionTag = some c.name)).map Doc.id).Nodup →
      ((getDocumentsByCollection s c).map Doc.id).Nodup) := by
  refine ⟨rfl, mem_getDocumentsByCollection s c, ?_⟩
  intro h1 h2
  have hsub : List.Sublist
      ((s.rootDocs.filter (fun d => d.metadata.collectionTag = some c.name)).filter
        (fun d => ¬ ((readCollectionFile s c).map (fun x => x.id)).contains d.id))
      (s.rootDocs.filter (fun d => d.metadata.collectionTag = some c.name)) :=
    List.filter_sublist _
  have h2' := h2.sublist (hsub.map Doc.id)
  have hgoal : ((readCollectionFile s c ++
      (s.rootDocs.filter (fun d => d.metadata.collectionTag = some c.name)).filter
        (fun d => ¬ ((readCollectionFile s c).map (fun x => x.id)).contains d.id)).map Doc.id).Nodup := by
    rw [List.map_append]
    refine h1.append h2' ?_
    intro a ha hb
    obtain ⟨d, hd, rfl⟩ := List.mem_map.mp hb
    have hpred := (List.mem_filter.mp hd).2
    simp only [decide_eq_true_eq, List.elem_iff] at hpred
    apply hpred
    simpa using ha
  exact hgoal

/-- A category with derived id `cat_x` living only in the legacy shared
root file. -/
def c9LegacyCat : Doc :=
  { id := "cat_x", content := "L - L", content_type := "category",
    metadata :=
      { name := some "L", description := some "L", icon := some "i",
        slug := some "x", collectionTag := some "categories" },
    tags := ["category"], created_at := 3, last_accessed_at := 3 }

/-- The C9 store: `cat_x` exists in the merged categories collection (via
the legacy file) but not in the dedicated categories file. -/
def c9Store : Store := { rootDocs := [c9LegacyCat] }

/-- C9 counterexample: the derived id `cat_x` already exists in the merged
categories collection, yet `createCategory` with code `x` does not fail
with a `ConflictError` — it succeeds, because the conflict check reads the
dedicated categories file only. -/
theorem createCategory_conflict_cex :
    (getDocumentsByCollection c9Store .categories).any (fun c => c.id = "cat_x") = true ∧
    isConflict (createCategory c9Store 100 "N" "D" "I" none "x").1 = false ∧
    isOk (createCategory c9Store 100 "N" "D" "I" none "x").1 = true := by
  refine ⟨by decide, by decide, by decide⟩

/-- C9 (amended): with name, description and icon present, `createCategory`
fails `ValidationError` when the code is absent or fails `[a-z0-9_-]+`;
when the code is valid it fails `ConflictError` exactly when the derived id
`cat_<code>` already occurs in the dedicated categories file (a copy living
only in the legacy shared file does not block); otherwise it succeeds and
the following `listCategories` contains exactly one category with
`id = "cat_" ++ code`, whose name, description, icon and slug equal the
supplied fields, slug defaulting to the code. -/
theorem createCategory_spec (s : Store) (now : Nat) (name description icon : String)
    (slug : Option String) (code : String)
    (hname : name ≠ "") (hdesc : description ≠ "") (hicon : icon ≠ "") :
    ((code = "" ∨ validCode code = false) →
      ∃ m, createCategory s now name description icon slug code =
        (.error (.ValidationError m), s)) ∧
    (validCode code = true →
      ((readCollectionFile s .categories).any (fun c => c.id = "cat_" ++ code) = true →
        ∃ m, createCategory s now name description icon slug code =
          (.error (.ConflictError m), s)) ∧
      ((readCollectionFile s .categories).any (fun c => c.id = "cat_" ++ code) = false →
        ∃ s2, createCategory s now name description icon slug code =
          (.ok { id := "cat_" ++ code, name := name, description := description,
                 icon := icon, slug := strD slug code }, s2) ∧
          ∃ n, (listCategories s2).filter (fun v => v.id = "cat_" ++ code) =
            [{ id := "cat_" ++ code, name := name, description := description,
               icon := icon, slug := strD slug code, articleCount := n }])) := by
  constructor
  · rintro (rfl | hvc)
    · exact ⟨"Category code is required", by simp [createCategory, hname, hdesc, hicon]⟩
    · by_cases hc0 : code = ""
      · subst hc0
        exact ⟨"Category code is required", by simp [createCategory, hname, hdesc, hicon]⟩
      · refine ⟨"Category code must only contain lowercase letters, numbers, underscores and hyphens", ?_⟩
        simp [createCategory, hname, hdesc, hicon, hc0, hvc]
  · intro hvc
    have hc0 : code ≠ "" := by
      intro h
      subst h
      simp [validCode] at hvc
    constructor
    · intro hconf
      exact ⟨"Category with ID " ++ ("cat_" ++ code) ++ " already exists",
        by simp [createCategory, hname, hdesc, hicon, hc0, hvc, hconf]⟩
    · intro hnc
      refine ⟨writeCollectionFile s .categories (readCollectionFile s .categories ++
        [newCategoryDoc now name description icon (strD slug code) code]), ?_, ?_⟩
      · simp [createCategory, hname, hdesc, hicon, hc0, hvc, hnc]
      · have hslug : strD slug code ≠ "" := by
          cases slug with
          | none => simpa [strD] using hc0
          | some v =>
              by_cases hv : v = "" <;> simp [strD, hv, hc0]
        have hold : ∀ d ∈ readCollectionFile s .categories, ¬ d.id = "cat_" ++ code := by
          intro d hd
          have := List.any_eq_false.mp hnc d hd
          simpa using this
        set newCat := newCategoryDoc now name description icon (strD slug code) code with hnewCat
        set ded := readCollectionFile s .categories with hded
        set s2 := writeCollectionFile s .categories (ded ++ [newCat]) with hs2
        set L := (s.rootDocs.filter (fun d => d.metadata.collectionTag = some "categories")).filter
          (fun d => ¬ (((ded ++ [newCat]).map (fun x => x.id)).contains d.id)) with hL
        have hmerge : getDocumentsByCollection s2 .categories = (ded ++ [newCat]) ++ L := rfl
        have h1 : ded.filter (fun d => d.id = "cat_" ++ code) = [] :=
          List.filter_eq_nil_iff.mpr (fun d hd => by simpa using hold d hd)
        have h2 : [newCat].filter (fun d => d.id = "cat_" ++ code) = [newCat] := by
          simp [hnewCat, newCategoryDoc]
        have h3 : L.filter (fun d => d.id = "cat_" ++ code) = [] := by
          refine List.filter_eq_nil_iff.mpr ?_
          intro d hd
          rw [hL] at hd
          have hpred := (List.mem_filter.mp hd).2
          simp only [decide_eq_true_eq, List.elem_iff] at hpred
          simp only [decide_eq_true_eq]
          intro hdid
          apply hpred
          rw [List.map_append]
          refine List.mem_append_right _ ?_
          simp [hnewCat, newCategoryDoc, hdid]
        have hdocs : (getDocumentsByCollection s2 .categories).filter
            (fun d => d.id = "cat_" ++ code) = [newCat] := by
          rw [hmerge, List.filter_append, List.filter_append, h1, h2, h3]
          simp
        have hlist : listCategories s2 = (getDocumentsByCollection s2 .categories).map
            (fun doc : Doc =>
              ({ id := doc.id
                 name := strD doc.metadata.name ""
                 description := strD doc.metadata.description ""
                 icon := strD doc.metadata.icon ""
                 slug := strD doc.metadata.slug ""
                 articleCount := ((getDocumentsByCollection s2 .news).filter (fun n =>
                   truthy n.metadata.categoryId = some doc.id)).length } : CategoryView)) := rfl
        refine ⟨((getDocumentsByCollection s2 .news).filter (fun n =>
          truthy n.metadata.categoryId = some ("cat_" ++ code))).length, ?_⟩
        rw [hlist, List.filter_map]
        rw [show ((fun v : CategoryView => decide (v.id = "cat_" ++ code)) ∘ (fun doc : Doc =>
              ({ id := doc.id
                 name := strD doc.metadata.name ""
                 description := strD doc.metadata.description ""
                 icon := strD doc.metadata.icon ""
                 slug := strD doc.metadata.slug ""
                 articleCount := ((getDocumentsByCollection s2 .news).filter (fun n =>
                   truthy n.metadata.categoryId = some doc.id)).length } : CategoryView))) =
            (fun d : Doc => decide (d.id = "cat_" ++ code)) from rfl]
        rw [hdocs]
        have e1 : strD (some name) "" = name := by
          show (if name = "" then "" else name) = name
          rw [if_neg hname]
        have e2 : strD (some description) "" = description := by
          show (if description = "" then "" else description) = description
          rw [if_neg hdesc]
        have e3 : strD (some icon) "" = icon := by
          show (if icon = "" then "" else icon) = icon
          rw [if_neg hicon]
        have e4 : strD (some (strD slug code)) "" = strD slug code := by
          show (if strD slug code = "" then "" else strD slug code) = strD slug code
          rw [if_neg hslug]
        simp [hnewCat, newCategoryDoc, e1, e2, e3, e4]

/-- An empty store used to witness the C9 round-trip. -/
def c9WitnessStore : Store := { rootDocs := [] }

/-- C9 witness: the amended theorem instantiated at an empty store: creating
category code `tech` succeeds and the following `listCategories` holds
exactly one entry with id `cat_tech` and the supplied fields, slug
defaulting to the code. -/
theorem createCategory_spec_witness :
    ∃ s2, createCategory c9WitnessStore 5 "Nm" "Ds" "Ic" none "tech" =
      (.ok { id := "cat_" ++ "tech", name := "Nm", description := "Ds",
             icon := "Ic", slug := strD none "tech" }, s2) ∧
      ∃ n, (listCategories s2).filter (fun v => v.id = "cat_" ++ "tech") =
        [{ id := "cat_" ++ "tech", name := "Nm", description := "Ds",
           icon := "Ic", slug := strD none "tech", articleCount := n }] :=
  ((createCategory_spec c9WitnessStore 5 "Nm" "Ds" "Ic" none "tech"
    (by decide) (by decide) (by decide)).2 (by decide)).2 (by decide)

/-- A category living only in the legacy shared root file. -/
def c10LegacyCat : Doc :=
  { id := "cat_l", content := "L - D", content_type := "category",
    metadata :=
      { name := some "L", description := some "D", icon := some "i",
        slug := some "l", collectionTag := some "categories" },
    tags := ["category"], created_at := 1, last_accessed_at := 1 }

/-- A legacy-root news article referencing the legacy-only category. -/
def c10RefArticle : Doc :=
  { id := "news_r", content := "R\n\nX", content_type := "news",
    metadata :=
      { title := some "R", categoryId := some "cat_l", status := some "draft",
        collectionTag := some "news" },
    tags := ["news"], created_at := 2, last_accessed_at := 2 }

/-- The C10 counterexample store: the legacy-only category is referenced by
an article. -/
def c10Store : Store := { rootDocs := [c10LegacyCat, c10RefArticle] }

/-- C10 counterexample: for the legacy-only category `cat_l`, which an
article references, `deleteCategory` does not fail with the claimed
`NotFoundError` — the restrict scan over the merged news collection runs
first and produces a `ReferentialIntegrityError`. -/
theorem legacy_only_delete_category_cex :
    readCollectionFile c10Store .categories = [] ∧
    (∃ d ∈ c10Store.rootDocs, d.id = "cat_l" ∧
      d.metadata.collectionTag = some "categories") ∧
    isNotFound (deleteCategory c10Store "cat_l").1 = false ∧
    isReferentialIntegrity (deleteCategory c10Store "cat_l").1 = true := by
  refine ⟨by decide, ⟨c10LegacyCat, by decide, by decide, by decide⟩, by decide, by decide⟩

/-- C10 (amended): a document living only in the legacy shared root file is
returned by the merged list reads, but the write paths read only the
dedicated subdirectory file: `updateCategory` fails `NotFoundError`,
`deleteCategory` fails `NotFoundError` when no merged news article
references the id and `ReferentialIntegrityError` (from the restrict scan,
which runs first) when one does, `deleteUser` fails `NotFoundError`, and
`updateUser` fails `NotFoundError` whenever the supplied role, if any, is
valid; in every case the store is returned unchanged. -/
theorem legacy_only_write_paths (s : Store) (id : String) (now : Nat)
    (fname fdesc ficon fslug uname uemail uavatar urole : Option String)
    (hcat : ∀ c ∈ readCollectionFile s .categories, c.id ≠ id)
    (husr : ∀ u ∈ readCollectionFile s .users, u.id ≠ id) :
    updateCategory s now id fname fdesc ficon fslug =
      (.error (.NotFoundError "Category not found"), s) ∧
    ((¬ ∃ n ∈ getDocumentsByCollection s .news, n.metadata.categoryId = some id) →
      deleteCategory s id = (.error (.NotFoundError "Category not found"), s)) ∧
    ((∃ n ∈ getDocumentsByCollection s .news, n.metadata.categoryId = some id) →
      deleteCategory s id =
        (.error (.ReferentialIntegrityError
          ("Cannot delete category " ++ id ++ ": it is referenced by news articles (restrict constraint)")), s)) ∧
    deleteUser s id = (.error (.NotFoundError "User not found"), s) ∧
    ((match truthy urole with
      | some r => validRole r = true
      | none => True) →
      updateUser s now id uname uemail uavatar urole =
        (.error (.NotFoundError "User not found"), s)) ∧
    (∀ d ∈ s.rootDocs, d.metadata.collectionTag = some "categories" → d.id = id →
      d ∈ getDocumentsByCollection s .categories) ∧
    (∀ d ∈ s.rootDocs, d.metadata.collectionTag = some "users" → d.id = id →
      d ∈ getDocumentsByCollection s .users) := by
  have hcfind : (readCollectionFile s .categories).find? (fun c => c.id = id) = none :=
    List.find?_eq_none.mpr (fun c hc => by simpa using hcat c hc)
  have hufind : (readCollectionFile s .users).find? (fun u => u.id = id) = none :=
    List.find?_eq_none.mpr (fun u hu => by simpa using husr u hu)
  have hcfilter : (readCollectionFile s .categories).filter (fun c => c.id ≠ id) =
      readCollectionFile s .categories :=
    List.filter_eq_self.mpr (fun c hc => by simpa using hcat c hc)
  have hufilter : (readCollectionFile s .users).filter (fun u => u.id ≠ id) =
      readCollectionFile s .users :=
    List.filter_eq_self.mpr (fun u hu => by simpa using husr u hu)
  refine ⟨?_, ?_, ?_, ?_, ?_, ?_, ?_⟩
  · simp [updateCategory, hcfind]
  · intro hno
    have hb : (getDocumentsByCollection s .news).any
        (fun n => n.metadata.categoryId = some id) = false := by
      refine List.any_eq_false.mpr ?_
      intro n hn
      simp only [decide_eq_true_eq]
      intro he
      exact hno ⟨n, hn, he⟩
    simp only [deleteCategory, hb, Bool.false_eq_true, if_false, hcfilter, if_pos rfl]
    simp
  · intro hyes
    have hb : (getDocumentsByCollection s .news).any
        (fun n => n.metadata.categoryId = some id) = true := by
      rw [List.any_eq_true]
      obtain ⟨n, hn, he⟩ := hyes
      exact ⟨n, hn, by simp [he]⟩
    simp [deleteCategory, hb]
  · simp [deleteUser, hufilter]
    exact fun x hx => husr x hx
  · intro hrole
    cases htr : truthy urole with
    | none => simp [updateUser, htr, hufind]
    | some r =>
        rw [htr] at hrole
        simp [updateUser, htr, hrole, hufind]
  · intro d hd htag hid
    refine (mem_getDocumentsByCollection s .categories d).mpr (Or.inr ⟨hd, htag, ?_⟩)
    intro hmem
    obtain ⟨c, hc, hcid⟩ := List.mem_map.mp hmem
    exact hcat c hc (by rw [hcid, hid])
  · intro d hd htag hid
    refine (mem_getDocumentsByCollection s .users d).mpr (Or.inr ⟨hd, htag, ?_⟩)
    intro hmem
    obtain ⟨u, hu, huid⟩ := List.mem_map.mp hmem
    exact husr u hu (by rw [huid, hid])

/-- A store holding only the legacy-only category, used to witness the C10
behaviour. -/
def c10WitnessStore : Store := { rootDocs := [c10LegacyCat] }

/-- C10 witness: the amended theorem instantiated at the concrete store
holding only the legacy category `cat_l`: `updateCategory` on its id fails
`NotFoundError` and leaves the store unchanged. -/
theorem legacy_only_write_paths_witness :
    updateCategory c10WitnessStore 7 "cat_l" none none none none =
      (.error (.NotFoundError "Category not found"), c10WitnessStore) :=
  (legacy_only_write_paths c10WitnessStore "cat_l" 7 none none none none
    none none none none (by decide) (by decide)).1

/-- The sort key the specification describes for the article list.
Modelled from the spec: `publishedAt` with `created_at` as the fallback
sort key when `publishedAt` is missing. -/
def claimedArticleSortKey (d : Doc) : Nat :=
  natD d.metadata.publishedAt d.created_at

/-- An article with no `publishedAt`, created late. -/
def c8ArticleNoPub : Doc :=
  { id := "news_A", content := "A\n\nbody", content_type := "news",
    metadata :=
      { title := some "A", categoryId := some "cat_c", authorId := some "user_u",
        status := some "draft", collectionTag := some "news" },
    tags := ["news"], created_at := 100, last_accessed_at := 100 }

/-- An article published early. -/
def c8ArticlePub : Doc :=
  { id := "news_B", content := "B\n\nbody", content_type := "news",
    metadata :=
      { title := some "B", categoryId := some "cat_c", authorId := some "user_u",
        status := some "published", publishedAt := some 50,
        collectionTag := some "news" },
    tags := ["news"], created_at := 40, last_accessed_at := 40 }

/-- The C8 store: one unpublished and one published article. -/
def c8Store : Store :=
  { rootDocs := [], news := some [c8ArticleNoPub, c8ArticlePub] }

/-- C8 counterexample: the claimed key of `news_A` (no `publishedAt`,
`created_at = 100`) is 100 and of `news_B` (`publishedAt = 50`) is 50, so
the claim predicts `news_A` first; the code sorts a missing `publishedAt`
as 0 and returns `[news_B, news_A]` — the returned `publishedAt` values
`[50, 100]` are not descending. -/
theorem listArticles_sort_fallback_cex :
    claimedArticleSortKey c8ArticleNoPub = 100 ∧
    claimedArticleSortKey c8ArticlePub = 50 ∧
    ((listArticles c8Store {}).articles).map (fun a => a.id) = ["news_B", "news_A"] ∧
    ((listArticles c8Store {}).articles).map (fun a => a.publishedAt) = [50, 100] ∧
    ¬ List.Pairwise (fun a b => b ≤ a)
      (((listArticles c8Store {}).articles).map (fun a => a.publishedAt)) := by
  refine ⟨by decide, by decide, by decide, by decide, by decide⟩

/-- C8 (amended): for every store and filter combination, `listArticles`
establishes its order before pagination: the filtered articles are
stable-sorted descending by `(metadata.publishedAt || 0)` — an article with
no `publishedAt` sorts with key 0, after every positively-timestamped
article, not by its `created_at` (the older `src/server/index.ts` variant
does fall back to `created_at`) — the returned page is the
`slice(offset, offset + limit)` of that sorted list, itself sorted by the
same key, and `total` counts all filtered articles before pagination. -/
theorem listArticles_sorted_spec (s : Store) (q : ArticleQuery) :
    List.Pairwise (fun a b => articleSortKey b ≤ articleSortKey a) (sortedNews s q) ∧
    List.Pairwise (fun a b => b ≤ a)
      ((((sortedNews s q).drop q.offset).take q.limit).map articleSortKey) ∧
    (listArticles s q).articles =
      (((sortedNews s q).drop q.offset).take q.limit).map
        (populateArticle (getDocumentsByCollection s .categories)
          (getDocumentsByCollection s .users)) ∧
    (listArticles s q).total = (filteredNews s q).length := by
  have h1 := pairwise_sortDescBy articleSortKey (filteredNews s q)
  refine ⟨h1, ?_, rfl, ?_⟩
  · have h2 : List.Pairwise (fun a b => articleSortKey b ≤ articleSortKey a)
        (((sortedNews s q).drop q.offset).take q.limit) :=
      h1.sublist ((List.take_sublist _ _).trans (List.drop_sublist _ _))
    exact List.pairwise_map.mpr h2
  · exact (perm_sortDescBy articleSortKey (filteredNews s q)).length_eq

theorem buildNode_comment (all : List FlatComment) (fuel : Nat) (c : FlatComment) :
    (buildNode all fuel c).comment = c := by
  cases fuel <;> rfl

theorem pairwise_treeComments (s : Store) (newsId : String) :
    (treeComments s newsId).Pairwise (fun a b => a.created_at ≤ b.created_at) :=
  List.pairwise_map.mpr (pairwise_sortAscBy (fun d => d.created_at) (treeCommentDocs s newsId))

theorem mem_buildForest (all : List FlatComment) (t : CommentTree)
    (ht : t ∈ buildForest all) :
    ∃ c ∈ all.filter (isRootComment all), t = buildNode all all.length c := by
  obtain ⟨c, hc, he⟩ := List.mem_map.mp ht
  exact ⟨c, hc, he.symm⟩

theorem buildForest_replies_spec (all : List FlatComment)
    (hall : all.Pairwise (fun a b => a.created_at ≤ b.created_at)) :
    ∀ t ∈ buildForest all,
      (∀ r ∈ t.replies, r.comment.parentId = some t.comment.id) ∧
      List.Pairwise (fun a b => a ≤ b)
        (t.replies.map (fun r => r.comment.created_at)) := by
  intro t ht
  obtain ⟨c, hc, rfl⟩ := mem_buildForest all t ht
  have hne : all ≠ [] := by
    intro h
    subst h
    simp at hc
  obtain ⟨m, hm⟩ : ∃ m, all.length = m + 1 := by
    cases all with
    | nil => exact absurd rfl hne
    | cons x xs => exact ⟨xs.length, rfl⟩
  rw [hm]
  constructor
  · intro r hr
    simp only [buildNode, CommentTree.replies] at hr
    obtain ⟨ch, hch, rfl⟩ := List.mem_map.mp hr
    have hpred := (List.mem_filter.mp hch).2
    simp only [decide_eq_true_eq] at hpred
    rw [buildNode_comment, buildNode_comment]
    exact hpred
  · simp only [buildNode, CommentTree.replies]
    rw [List.map_map]
    rw [show ((fun r : CommentTree => r.comment.created_at) ∘ (buildNode all m)) =
        (fun ch : FlatComment => ch.created_at) from
      funext fun ch => by rw [Function.comp_apply, buildNode_comment]]
    exact List.pairwise_map.mpr (List.Pairwise.filter _ hall)

/-- Full forest correctness at every depth: a tree is `NodeOk` when its
replies' comments are exactly the direct children of its comment within the
populated list (all of them, in that list's order), and recursively so for
every reply. -/
inductive NodeOk (all : List FlatComment) : CommentTree → Prop where
  | mk (c : FlatComment) (rs : List CommentTree)
      (hmap : rs.map CommentTree.comment = childrenOf all c.id)
      (hrec : ∀ r ∈ rs, NodeOk all r) :
      NodeOk all (.node c rs)

theorem buildNode_ok (all : List FlatComment) (rank : FlatComment → Nat)
    (hdesc : ∀ p ∈ all, ∀ ch ∈ all, ch.parentId = some p.id → rank ch < rank p) :
    ∀ fuel, ∀ c ∈ all, rank c < fuel → NodeOk all (buildNode all fuel c) := by
  intro fuel
  induction fuel with
  | zero =>
      intro c _ hr
      exact absurd hr (Nat.not_lt_zero _)
  | succ f ih =>
      intro c hc hr
      simp only [buildNode]
      refine NodeOk.mk c _ ?_ ?_
      · rw [List.map_map]
        rw [show (CommentTree.comment ∘ buildNode all f) = id from
          funext fun x => by rw [Function.comp_apply, buildNode_comment]; rfl]
        exact List.map_id _
      · intro r hr2
        obtain ⟨ch, hch, rfl⟩ := List.mem_map.mp hr2
        simp only [childrenOf] at hch
        have hchmem := List.mem_filter.mp hch
        have hpred : ch.parentId = some c.id := by simpa using hchmem.2
        have hlt : rank ch < rank c := hdesc c hc ch hchmem.1 hpred
        exact ih ch hchmem.1 (by omega)

/-- Every tree built by the route satisfies the full forest correctness,
given any rank that is bounded by the comment count and strictly decreases
from parent to child — such a rank exists whenever every resolved parent
precedes its reply, the steady state `createComment` maintains. -/
theorem buildForest_ok (all : List FlatComment) (rank : FlatComment → Nat)
    (hbound : ∀ c ∈ all, rank c < all.length)
    (hdesc : ∀ p ∈ all, ∀ ch ∈ all, ch.parentId = some p.id → rank ch < rank p) :
    ∀ t ∈ buildForest all, NodeOk all t := by
  intro t ht
  obtain ⟨c, hc, rfl⟩ := mem_buildForest all t ht
  have hcall : c ∈ all := (List.mem_filter.mp hc).1
  exact buildNode_ok all rank hdesc all.length c hcall (hbound c hcall)

theorem buildForest_root_parent (all : List FlatComment) :
    ∀ t ∈ buildForest all,
      match t.comment.parentId with
      | none => True
      | some p => ((all.map (fun c => c.id)).contains p) = false := by
  intro t ht
  obtain ⟨c, hc, rfl⟩ := mem_buildForest all t ht
  have hroot := (List.mem_filter.mp hc).2
  rw [buildNode_comment]
  cases hp : c.parentId with
  | none => trivial
  | some p =>
      simp only [isRootComment, hp] at hroot
      simpa using hroot

/-- A comment with id `b` at `t = 100` in the legacy root file (file order
first). -/
def c7CommentB : Doc :=
  { id := "b", content := "B", content_type := "comment",
    metadata :=
      { newsId := some "n", likeCount := some 0, collectionTag := some "comments" },
    tags := ["comment"], created_at := 100, last_accessed_at := 100 }

/-- A comment with id `a` at the same `t = 100`, later in file order. -/
def c7CommentA : Doc :=
  { id := "a", content := "A", content_type := "comment",
    metadata :=
      { newsId := some "n", likeCount := some 0, collectionTag := some "comments" },
    tags := ["comment"], created_at := 100, last_accessed_at := 100 }

/-- The C7 tie store: two root comments with equal timestamps, ids in file
order `b` then `a`. -/
def c7Store : Store := { rootDocs := [c7CommentB, c7CommentA] }

/-- C7 counterexample: with equal `created_at`, the route's stable sort
keeps the stored file order `[b, a]`, so the root sequence is not ordered
by the claimed `(created_at, id ascending)` tie-break, which would require
`[a, b]`. -/
theorem listComments_tie_order_cex :
    ((listCommentsTree c7Store "n").map (fun t => t.comment.id)) = ["b", "a"] ∧
    ((listCommentsTree c7Store "n").map (fun t => t.comment.created_at)) = [100, 100] ∧
    ¬ List.Pairwise (fun x y : Nat × String => x.1 < y.1 ∨ (x.1 = y.1 ∧ x.2 ≤ y.2))
      ((listCommentsTree c7Store "n").map (fun t => (t.comment.created_at, t.comment.id))) := by
  refine ⟨by decide, by decide, ?_⟩
  intro hpair
  have hmap : ((listCommentsTree c7Store "n").map
      (fun t => (t.comment.created_at, t.comment.id))) = [(100, "b"), (100, "a")] := by decide
  rw [hmap, List.pairwise_cons] at hpair
  have hba := hpair.1 (100, "a") (by simp)
  rcases hba with h | ⟨_, hle⟩
  · omega
  · have hnot : ¬ (("b" : String) ≤ "a") := by
      rw [String.le_iff_toList_le]
      decide
    exact hnot hle

/-- The spec's example root comment `c1@t=100`. -/
def c7Ex1 : Doc :=
  { id := "c1", content := "one", content_type := "comment",
    metadata :=
      { newsId := some "n", likeCount := some 0, collectionTag := some "comments" },
    tags := ["comment"], created_at := 100, last_accessed_at := 100 }

/-- The spec's example root comment `c2@t=50`. -/
def c7Ex2 : Doc :=
  { id := "c2", content := "two", content_type := "comment",
    metadata :=
      { newsId := some "n", likeCount := some 0, collectionTag := some "comments" },
    tags := ["comment"], created_at := 50, last_accessed_at := 50 }

/-- The spec's example reply `c3@t=200`, child of `c1`. -/
def c7Ex3 : Doc :=
  { id := "c3", content := "three", content_type := "comment",
    parent_id := some "c1", depth := 1,
    metadata :=
      { newsId := some "n", parentId := some "c1", likeCount := some 0,
        collectionTag := some "comments" },
    tags := ["comment", "reply"], created_at := 200, last_accessed_at := 200 }

/-- The spec's comment-tree example store. -/
def c7ExStore : Store := { rootDocs := [c7Ex1, c7Ex2, c7Ex3] }

/-- A concrete parent rank for the spec's example store: `c3` (the only
reply) ranks below its parent `c1`. -/
def c7ExRank (c : FlatComment) : Nat :=
  if c.id = "c3" then 0 else if c.id = "c1" then 1 else 2

/-- C7 (amended): `listCommentsTree` returns the matching comments as a
forest.  The root sequence is exactly the populated sorted list restricted
to comments whose `parentId` is null or resolves to no fetched comment id
(dangling parents appear as roots rather than erroring), so roots are
ordered by `created_at` ascending; ties are kept in stored (file) order in
general — within each timestamp class the populated list equals the
population of the file-ordered fetched documents — not re-ordered by id.
For any rank bounded by the comment count and strictly decreasing from
parent to reply (such a rank exists in steady state, where every resolved
parent precedes its reply), every node of the forest at every depth carries
as `replies` exactly its direct children, all of them, in the sorted list's
order (`NodeOk`).  On the spec's example (`c1@100`, `c2@50`, `c3@200` child
of `c1`) the root order is `[c2, c1]` with `c1.replies = [c3]`, and the
full-forest correctness holds there concretely. -/
theorem listCommentsTree_forest_spec (s : Store) (newsId : String) :
    (listCommentsTree s newsId).map CommentTree.comment =
      (treeComments s newsId).filter (isRootComment (treeComments s newsId)) ∧
    List.Pairwise (fun a b => a ≤ b)
      ((listCommentsTree s newsId).map (fun t => t.comment.created_at)) ∧
    (∀ k : Nat, (treeComments s newsId).filter (fun c => c.created_at = k) =
      ((treeCommentDocs s newsId).filter (fun d => d.created_at = k)).map
        (populateComment (parseDocumentsByCollection s.rootDocs .users))) ∧
    (∀ rank : FlatComment → Nat,
      (∀ c ∈ treeComments s newsId, rank c < (treeComments s newsId).length) →
      (∀ p ∈ treeComments s newsId, ∀ ch ∈ treeComments s newsId,
        ch.parentId = some p.id → rank ch < rank p) →
      ∀ t ∈ listCommentsTree s newsId, NodeOk (treeComments s newsId) t) ∧
    (∀ t ∈ listCommentsTree s newsId,
      (∀ r ∈ t.replies, r.comment.parentId = some t.comment.id) ∧
      List.Pairwise (fun a b => a ≤ b)
        (t.replies.map (fun r => r.comment.created_at))) ∧
    (∀ t ∈ listCommentsTree s newsId,
      match t.comment.parentId with
      | none => True
      | some p => (((treeComments s newsId).map (fun c => c.id)).contains p) = false) ∧
    (∀ c ∈ treeComments s newsId, isRootComment (treeComments s newsId) c = true →
      ∃ t ∈ listCommentsTree s newsId, t.comment = c) ∧
    (listCommentsTree c7ExStore "n").map
      (fun t => (t.comment.id, t.replies.map (fun r => r.comment.id))) =
      [("c2", []), ("c1", ["c3"])] ∧
    (∀ t ∈ listCommentsTree c7ExStore "n", NodeOk (treeComments c7ExStore "n") t) := by
  have hpc := pairwise_treeComments s newsId
  refine ⟨?_, ?_, ?_, ?_, buildForest_replies_spec _ hpc, buildForest_root_parent _, ?_,
    by decide, buildForest_ok _ c7ExRank (by decide) (by decide)⟩
  · show (buildForest (treeComments s newsId)).map CommentTree.comment = _
    rw [buildForest, List.map_map]
    rw [show (CommentTree.comment ∘
        (buildNode (treeComments s newsId) (treeComments s newsId).length)) = id from
      funext fun c => by rw [Function.comp_apply, buildNode_comment]; rfl]
    exact List.map_id _
  · show List.Pairwise (fun a b => a ≤ b)
      ((buildForest (treeComments s newsId)).map (fun t => t.comment.created_at))
    rw [buildForest, List.map_map]
    rw [show ((fun t : CommentTree => t.comment.created_at) ∘
        (buildNode (treeComments s newsId) (treeComments s newsId).length)) =
        (fun c : FlatComment => c.created_at) from
      funext fun c => by rw [Function.comp_apply, buildNode_comment]]
    exact List.pairwise_map.mpr (List.Pairwise.filter _ hpc)
  · intro k
    show ((sortAscBy (fun d => d.created_at) (treeCommentDocs s newsId)).map
      (populateComment (parseDocumentsByCollection s.rootDocs .users))).filter
        (fun c => c.created_at = k) = _
    rw [List.filter_map]
    rw [show ((fun c : FlatComment => decide (c.created_at = k)) ∘
        (populateComment (parseDocumentsByCollection s.rootDocs .users))) =
        (fun d : Doc => decide (d.created_at = k)) from rfl]
    rw [sortAscBy_stable]
  · intro rank hbound hdesc
    exact buildForest_ok _ rank hbound hdesc
  · intro c hc hroot
    refine ⟨buildNode (treeComments s newsId) (treeComments s newsId).length c, ?_,
      buildNode_comment _ _ _⟩
    show _ ∈ buildForest (treeComments s newsId)
    rw [buildForest]
    exact List.mem_map_of_mem _ (List.mem_filter.mpr ⟨hc, hroot⟩)

end VibeBase
